import Mathlib

/-!
Verification development for the AIShoppingOCR browser application
(`src/App.tsx`, `src/types.ts`).

The TypeScript code is shallowly embedded: the record data model, the
filtering/sorting effect, the delete handler, the localStorage load/save
round trip, the image-resize dimension arithmetic, the add-record flow and
the analyze handler are translated into executable Lean definitions.
JavaScript numbers are modelled as `ℚ` (exact where the source computes
exactly; float rounding is not modelled), machine dates as epoch
milliseconds (`ℤ`), and JS strings as Lean `String`s over their character
lists.  Platform `Date` operations (`Date.parse` of ISO-8601 strings with
the `Z` designator, `Date.prototype.toISOString`, `getTime`) are modelled
following ECMA-262: both are defined purely in terms of UTC, so they take
the runtime's local-timezone offset `tz` as an explicit, unused parameter —
this makes timezone-independence a statable property.
-/

namespace AIShoppingOCR

/-- Structure `GeolocationPosition` from `src/types.ts`. -/
structure GeolocationPosition where
  latitude : ℚ
  longitude : ℚ
deriving DecidableEq, Repr

/-- Structure `ProductRecord` from `src/types.ts`.  `price` is a JS number (modelled
as `ℚ`); `date` is an ISO-8601 timestamp string; `location` is
`GeolocationPosition | null`. -/
structure ProductRecord where
  id : String
  imageUrl : String
  name : String
  price : ℚ
  date : String
  location : Option GeolocationPosition
deriving DecidableEq, Repr

/-! ### Character helpers (ASCII digits, JS whitespace, case folding) -/

/-- The whitespace characters stripped by `String.prototype.trim`
(ASCII subset of the WhiteSpace/LineTerminator productions). -/
def jsWhitespace (c : Char) : Bool :=
  c = ' ' || c = '\t' || c = '\n' || c = '\r' || c = '\x0b' || c = '\x0c'

/-- ASCII decimal digit test. -/
def isDig (c : Char) : Bool :=
  decide ('0' ≤ c) && decide (c ≤ '9')

/-- Numeric value of an ASCII digit character. -/
def digitVal (c : Char) : Nat := c.toNat - 48

/-- The ASCII digit character for `m % 10` (total: inputs ≥ 9 give `'9'`,
only reached with `m ≤ 9` in this development). -/
def digitChar : Nat → Char
  | 0 => '0' | 1 => '1' | 2 => '2' | 3 => '3' | 4 => '4'
  | 5 => '5' | 6 => '6' | 7 => '7' | 8 => '8' | _ => '9'

/-- Decimal digit list of `n`, most significant first; `fuel` bounds the
recursion (`fuel = n` suffices since `n / 10 < n` for `n > 0`). -/
def natDigitsAux : Nat → Nat → List Char
  | 0, _ => []
  | _ + 1, 0 => []
  | fuel + 1, n + 1 =>
    natDigitsAux fuel ((n + 1) / 10) ++ [digitChar ((n + 1) % 10)]

/-- Decimal digit list of `n`, most significant first. -/
def natDigits (n : Nat) : List Char :=
  if n = 0 then ['0'] else natDigitsAux n n

/-- Number `n` printed in decimal, left-padded with `'0'` to `w` characters. -/
def padNatChars (w n : Nat) : List Char :=
  List.replicate (w - (natDigits n).length) '0' ++ natDigits n

/-- ASCII lower-casing of a single character, as
`String.prototype.toLowerCase` acts on ASCII. -/
def jsToLowerChar (c : Char) : Char :=
  if 'A' ≤ c ∧ c ≤ 'Z' then Char.ofNat (c.toNat + 32) else c

/-- Model of `String.prototype.toLowerCase`, restricted to its ASCII behaviour. -/
def jsToLower (s : String) : String :=
  String.mk (s.data.map jsToLowerChar)

/-- Model of `String.prototype.trim`. -/
def jsTrim (s : String) : String :=
  String.mk (((s.data.dropWhile jsWhitespace).reverse.dropWhile jsWhitespace).reverse)

/-- Model of `s.split('T')[0]`: the longest `'T'`-free leading piece of `s`. -/
def splitHeadT (s : String) : String :=
  String.mk (s.data.takeWhile (fun c => c != 'T'))

/-! ### Proleptic Gregorian calendar arithmetic (days ↔ civil dates)

Standard era-based conversions between a day count from the epoch
1970-01-01 and a civil `(year, month, day)` triple, used to model the
ECMA-262 date-time conversions inside `Date.parse` / `toISOString`. -/

/-- Days from 1970-01-01 to civil date `y-m-d` (proleptic Gregorian). -/
def daysFromCivil (y m d : Int) : Int :=
  let y' := y - (if m ≤ 2 then 1 else 0)
  let era := Int.ediv y' 400
  let yoe := y' - era * 400
  let mp := Int.emod (m + 9) 12
  let doy := Int.ediv (153 * mp + 2) 5 + d - 1
  let doe := yoe * 365 + Int.ediv yoe 4 - Int.ediv yoe 100 + doy
  era * 146097 + doe - 719468

/-- Civil date `(y, m, d)` of the day `z` days after 1970-01-01. -/
def civilFromDays (z0 : Int) : Int × Int × Int :=
  let z := z0 + 719468
  let era := Int.ediv z 146097
  let doe := z - era * 146097
  let yoe :=
    Int.ediv (doe - Int.ediv doe 1460 + Int.ediv doe 36524 - Int.ediv doe 146096) 365
  let y := yoe + era * 400
  let doy := doe - (365 * yoe + Int.ediv yoe 4 - Int.ediv yoe 100)
  let mp := Int.ediv (5 * doy + 2) 153
  let d := doy - Int.ediv (153 * mp + 2) 5 + 1
  let m := mp + (if mp < 10 then 3 else -9)
  (y + (if m ≤ 2 then 1 else 0), m, d)

/-! ### The JS `Date` model -/

/-- The year field of an ISO-8601 serialization (ECMA-262 Date Time String
Format: four digits for years 0–9999, otherwise a sign and six digits). -/
def isoYearChars (y : Int) : List Char :=
  if y < 0 then '-' :: padNatChars 6 (-y).toNat
  else if 9999 < y then '+' :: padNatChars 6 y.toNat
  else padNatChars 4 y.toNat

/-- The `YYYY-MM-DD` character list of the UTC calendar day containing the
time value `t` (epoch milliseconds). -/
def utcCalendarDayChars (t : Int) : List Char :=
  match civilFromDays (Int.ediv t 86400000) with
  | (y, m, d) =>
    isoYearChars y ++ '-' :: padNatChars 2 m.toNat ++ '-' :: padNatChars 2 d.toNat

/-- The UTC calendar day of time value `t` as a `YYYY-MM-DD` string: the
date portion of the ISO-8601 UTC serialization. -/
def utcCalendarDay (t : Int) : String :=
  String.mk (utcCalendarDayChars t)

/-- The `HH:MM:SS.sssZ` portion of the ISO-8601 UTC serialization. -/
def isoTimeChars (t : Int) : List Char :=
  let ms := Int.emod t 86400000
  padNatChars 2 (Int.ediv ms 3600000).toNat ++ ':' ::
    padNatChars 2 (Int.emod (Int.ediv ms 60000) 60).toNat ++ ':' ::
    padNatChars 2 (Int.emod (Int.ediv ms 1000) 60).toNat ++ '.' ::
    padNatChars 3 (Int.emod ms 1000).toNat ++ ['Z']

/-- Model of `Date.prototype.toISOString` on the time value `t`.  Per ECMA-262 it
serializes the time value in UTC; the runtime timezone offset `tz` is
therefore never consulted (it is threaded to make that statable). -/
def jsToISOString (_tz : Int) (t : Int) : String :=
  String.mk (utcCalendarDayChars t ++ 'T' :: isoTimeChars t)

/-- Parse two ASCII digits. -/
def parse2 (a b : Char) : Option Nat :=
  if isDig a && isDig b then some (10 * digitVal a + digitVal b) else none

/-- Parse four ASCII digits. -/
def parse4 (a b c d : Char) : Option Nat :=
  if isDig a && isDig b && isDig c && isDig d then
    some (1000 * digitVal a + 100 * digitVal b + 10 * digitVal c + digitVal d)
  else none

/-- Parse the `HH:MM:SS[.sss]Z` tail of an ISO timestamp into milliseconds
since its UTC midnight. -/
def parseTimeChars : List Char → Option Int
  | [h1, h2, ':', m1, m2, ':', s1, s2, 'Z'] => do
    let hh ← parse2 h1 h2
    let mi ← parse2 m1 m2
    let ss ← parse2 s1 s2
    if hh ≤ 23 ∧ mi ≤ 59 ∧ ss ≤ 59 then
      some ((hh : Int) * 3600000 + (mi : Int) * 60000 + (ss : Int) * 1000)
    else none
  | [h1, h2, ':', m1, m2, ':', s1, s2, '.', f1, f2, f3, 'Z'] => do
    let hh ← parse2 h1 h2
    let mi ← parse2 m1 m2
    let ss ← parse2 s1 s2
    if isDig f1 && isDig f2 && isDig f3 then
      if hh ≤ 23 ∧ mi ≤ 59 ∧ ss ≤ 59 then
        some ((hh : Int) * 3600000 + (mi : Int) * 60000 + (ss : Int) * 1000 +
          (100 * digitVal f1 + 10 * digitVal f2 + digitVal f3 : Nat))
      else none
    else none
  | _ => none

/-- Model of `Date.parse` (via `new Date(string)`) restricted to the ECMA-262 Date
Time String Format with the `Z` UTC designator, the only format the
application stores (`new Date().toISOString()`).  Per ECMA-262, strings in
this format carrying `Z` are interpreted in UTC, so the runtime timezone
offset `tz` is never consulted.  `none` models an invalid date (time value
`NaN`). -/
def jsDateParse (_tz : Int) (s : String) : Option Int :=
  match s.data with
  | [y1, y2, y3, y4, '-', m1, m2, '-', d1, d2] => do
    let y ← parse4 y1 y2 y3 y4
    let mo ← parse2 m1 m2
    let d ← parse2 d1 d2
    if 1 ≤ mo ∧ mo ≤ 12 ∧ 1 ≤ d ∧ d ≤ 31 then
      some (daysFromCivil y mo d * 86400000)
    else none
  | y1 :: y2 :: y3 :: y4 :: '-' :: m1 :: m2 :: '-' :: d1 :: d2 :: 'T' :: rest => do
    let y ← parse4 y1 y2 y3 y4
    let mo ← parse2 m1 m2
    let d ← parse2 d1 d2
    let ms ← parseTimeChars rest
    if 1 ≤ mo ∧ mo ≤ 12 ∧ 1 ≤ d ∧ d ≤ 31 then
      some (daysFromCivil y mo d * 86400000 + ms)
    else none
  | _ => none

/-- Model of `new Date(s).getTime()`.  An unparseable date yields `NaN` in JS,
modelled as `0`; the theorems below never depend on that default. -/
def jsGetTime (tz : Int) (s : String) : Int :=
  (jsDateParse tz s).getD 0

/-! ### The History View Filter (`filteredRecords` effect, App.tsx 46–62) -/

/-- Whether `needle` is a leading run of `haystack`. -/
def startsWithChars : List Char → List Char → Bool
  | [], _ => true
  | _ :: _, [] => false
  | a :: as, b :: bs => a == b && startsWithChars as bs

/-- Model of `String.prototype.includes` on character lists: `needle` occurs as a
contiguous run of `haystack` (the empty needle always occurs). -/
def includesChars (needle : List Char) : List Char → Bool
  | [] => startsWithChars needle []
  | b :: bs => startsWithChars needle (b :: bs) || includesChars needle bs

/-- Predicate `record.name.toLowerCase().includes(searchTerm.toLowerCase())`
(App.tsx line 51); `includes` is substring containment. -/
def nameMatches (record : ProductRecord) (searchTerm : String) : Bool :=
  includesChars (jsToLower searchTerm).data (jsToLower record.name).data

/-- Predicate `new Date(record.date).toISOString().split('T')[0] === dateFilter`
(App.tsx line 57).  On an unparseable date `toISOString` throws in JS,
aborting the effect; the model returns `false` there (no theorem below
depends on unparseable dates). -/
def dateMatches (tz : Int) (record : ProductRecord) (dateFilter : String) : Bool :=
  match jsDateParse tz record.date with
  | some t => splitHeadT (jsToISOString tz t) == dateFilter
  | none => false

/-- The order the sort comparator
`(a, b) => new Date(b.date).getTime() - new Date(a.date).getTime()`
(App.tsx line 61) establishes: `a` precedes `b` when the comparator is
`≤ 0`, i.e. when `b`'s time is at most `a`'s — date descending. -/
def recordOrder (tz : Int) (a b : ProductRecord) : Prop :=
  jsGetTime tz b.date ≤ jsGetTime tz a.date

instance (tz : Int) : DecidableRel (recordOrder tz) := fun _ _ => Int.decLe _ _

instance (tz : Int) : IsTotal ProductRecord (recordOrder tz) :=
  ⟨fun a b => le_total (jsGetTime tz b.date) (jsGetTime tz a.date)⟩

instance (tz : Int) : IsTrans ProductRecord (recordOrder tz) :=
  ⟨fun _ _ _ hab hbc => le_trans hbc hab⟩

/-- The `filteredRecords` effect body (App.tsx 46–62): copy `records`,
filter by the name predicate when `searchTerm` is truthy (non-empty),
filter by the date predicate when `dateFilter` is truthy, then sort with
the date-descending comparator.  `Array.prototype.sort` is a stable
comparison sort, modelled by `List.insertionSort` on `recordOrder`. -/
def filteredRecords (tz : Int) (records : List ProductRecord)
    (searchTerm dateFilter : String) : List ProductRecord :=
  let temp0 := records
  let temp1 := if searchTerm ≠ "" then
      temp0.filter (fun record => nameMatches record searchTerm)
    else temp0
  let temp2 := if dateFilter ≠ "" then
      temp1.filter (fun record => dateMatches tz record dateFilter)
    else temp1
  List.insertionSort (recordOrder tz) temp2

/-! ### Record Store operations -/

/-- Handler `handleDeleteRecord` (App.tsx 176–178):
`records.filter(record => record.id !== id)`. -/
def removeRecord (records : List ProductRecord) (id : String) : List ProductRecord :=
  records.filter (fun record => record.id != id)

/-! ### JSON persistence model (App.tsx 26–44)

`JSON.stringify` / `JSON.parse` are modelled at the level of the JSON value
tree they serialize: `JSON.stringify` and `JSON.parse` are mutually inverse
between trees of this shape and their string serializations, so the
persisted slot holds either a well-formed tree or an unparseable raw string
(on which `JSON.parse` throws a `SyntaxError`). -/

/-- A JSON value. -/
inductive Json where
  | null
  | bool (b : Bool)
  | num (q : ℚ)
  | str (s : String)
  | arr (elems : List Json)
  | obj (fields : List (String × Json))

/-- Contents of the `'shoppingHistory'` localStorage slot: a string that
parses as JSON (represented by its parse tree) or one that does not. -/
inductive Payload where
  | wellFormed (j : Json) : Payload
  | malformed (raw : String) : Payload

/-- Model of `JSON.parse` on a stored payload: the tree, or a thrown `SyntaxError`. -/
def jsonParse : Payload → Except String Json
  | .wellFormed j => .ok j
  | .malformed _ => .error "SyntaxError: Unexpected token in JSON"

/-- Serialization of an optional `GeolocationPosition` (`null` when
absent), field order as in the object literal (App.tsx 163–170). -/
def encodeLocation : Option GeolocationPosition → Json
  | none => .null
  | some loc => .obj [("latitude", .num loc.latitude), ("longitude", .num loc.longitude)]

/-- Serialization of one `ProductRecord` (fields in declaration order). -/
def encodeRecord (r : ProductRecord) : Json :=
  .obj [("id", .str r.id), ("imageUrl", .str r.imageUrl), ("name", .str r.name),
    ("price", .num r.price), ("date", .str r.date),
    ("location", encodeLocation r.location)]

/-- Serialization of the record collection. -/
def encodeRecords (records : List ProductRecord) : Json :=
  .arr (records.map encodeRecord)

/-- Interpretation of a parsed JSON value as a `GeolocationPosition | null`. -/
def decodeLocation : Json → Option (Option GeolocationPosition)
  | .null => some none
  | .obj [("latitude", .num la), ("longitude", .num lo)] => some (some ⟨la, lo⟩)
  | _ => none

/-- Interpretation of a parsed JSON value as a `ProductRecord`.  The source
casts the parse result without validation; values of a different shape
cannot inhabit the typed state and are mapped to `none`. -/
def decodeRecord : Json → Option ProductRecord
  | .obj [("id", .str id), ("imageUrl", .str imageUrl), ("name", .str name),
      ("price", .num price), ("date", .str date), ("location", loc)] =>
    (decodeLocation loc).map fun location =>
      { id := id, imageUrl := imageUrl, name := name, price := price,
        date := date, location := location }
  | _ => none

/-- Interpretation of a parsed JSON value as a record list. -/
def decodeRecordList : List Json → Option (List ProductRecord)
  | [] => some []
  | j :: js =>
    match decodeRecord j, decodeRecordList js with
    | some r, some rs => some (r :: rs)
    | _, _ => none

/-- Interpretation of a parsed JSON value as the record collection. -/
def decodeRecords : Json → Option (List ProductRecord)
  | .arr js => decodeRecordList js
  | _ => none

/-- The `try` block of the load effect (App.tsx 27–31): read the slot; when
present, `JSON.parse` it (propagating a parse exception) and use the result
as the record list; when absent, keep the initial empty list. -/
def loadBody (slot : Option Payload) : Except String (List ProductRecord) :=
  match slot with
  | none => .ok []
  | some p =>
    match jsonParse p with
    | .error e => .error e
    | .ok j => .ok ((decodeRecords j).getD [])

/-- The load effect (App.tsx 26–35): the `try` block with its `catch`,
which logs and leaves the collection at its initial empty value. -/
def loadRecords (slot : Option Payload) : List ProductRecord :=
  match loadBody slot with
  | .ok records => records
  | .error _ => []

/-- A successful run of the save effect (App.tsx 37–44):
`localStorage.setItem('shoppingHistory', JSON.stringify(records))`. -/
def saveRecords (records : List ProductRecord) : Payload :=
  .wellFormed (encodeRecords records)

/-! ### `parseFloat` and the add-record flow (App.tsx 158–174) -/

/-- Model of `parseFloat`: skip leading whitespace, optional sign, then the longest
numeric literal (digits, optional fraction, optional exponent); `none`
models `NaN` (no digits).  Float rounding is not modelled (`ℚ` is exact).
The value `sign · mantissa · 10^exponent` is assembled as one exact
rational `mkRat num den`. -/
def jsParseFloat (s : String) : Option ℚ :=
  let cs := s.data.dropWhile jsWhitespace
  let neg := cs.head? = some '-'
  let cs := if cs.head? = some '-' ∨ cs.head? = some '+' then cs.tail else cs
  let intDigits := cs.takeWhile isDig
  let cs1 := cs.dropWhile isDig
  let fracDigits :=
    if cs1.head? = some '.' then cs1.tail.takeWhile isDig else []
  let cs2 := if cs1.head? = some '.' then cs1.tail.dropWhile isDig else cs1
  if intDigits = [] ∧ fracDigits = [] then none
  else
    let mantNum : Nat :=
      (intDigits ++ fracDigits).foldl (fun a c => 10 * a + digitVal c) 0
    let expPart : List Char × Bool :=
      match cs2 with
      | 'e' :: '-' :: r | 'E' :: '-' :: r => (r.takeWhile isDig, true)
      | 'e' :: '+' :: r | 'E' :: '+' :: r => (r.takeWhile isDig, false)
      | 'e' :: r | 'E' :: r => (r.takeWhile isDig, false)
      | _ => ([], false)
    let eMag : Nat := expPart.1.foldl (fun a c => 10 * a + digitVal c) 0
    let num : Int :=
      (if neg then -1 else 1) * (mantNum : Int) *
        (if expPart.1 ≠ [] ∧ ¬expPart.2 then (10 : Int) ^ eMag else 1)
    let den : Nat :=
      10 ^ fracDigits.length * (if expPart.1 ≠ [] ∧ expPart.2 then 10 ^ eMag else 1)
    some (mkRat num den)

/-- The id scheme of `handleAddRecord` (App.tsx 164):
```${new Date().toISOString()}-${Math.random()}``` with `now` the
serialized creation instant and `rand` the stringified `Math.random()`. -/
def genId (now rand : String) : String :=
  now ++ "-" ++ rand

/-- A user/environment interaction with the Record Store.  `addRecord`
carries the environment inputs of `handleAddRecord` (App.tsx 158–174): the
creation instant `now` (serialized by `toISOString`), the stringified
`Math.random()` draw `rand`, the confirmed form fields, the preview image
and the optional captured location.  `deleteRecord` is `handleDeleteRecord`
(App.tsx 176–178). -/
inductive Event where
  | addRecord (now rand name priceInput imageUrl : String)
      (loc : Option GeolocationPosition)
  | deleteRecord (id : String)
deriving DecidableEq, Repr

/-- One event applied to the in-memory collection.  `addRecord` prepends
the new record (`setRecords(prev => [newRecord, ...prev])`); its price is
`parseFloat` of the confirmed input (an unparseable input stores `NaN` in
JS, modelled as `0`; theorems about prices hypothesize a parseable
input). -/
def applyEvent (records : List ProductRecord) : Event → List ProductRecord
  | .addRecord now rand name priceInput imageUrl loc =>
    { id := genId now rand, imageUrl := imageUrl, name := name,
      price := (jsParseFloat priceInput).getD 0, date := now,
      location := loc } :: records
  | .deleteRecord id => removeRecord records id

/-- The collection reached from an initial collection by a sequence of
events. -/
def runEvents (init : List ProductRecord) (events : List Event) : List ProductRecord :=
  events.foldl applyEvent init

/-- The id the environment supplies to an `addRecord` event. -/
def eventAddId : Event → Option String
  | .addRecord now rand _ _ _ _ => some (genId now rand)
  | .deleteRecord _ => none

/-! ### Array-reference model of the filter effect (for the frame claim)

JS arrays are heap references; `[...records]` copies, `filter` allocates a
fresh array, and `sort` mutates its receiver in place and returns the same
reference.  The heap maps references (allocation indices) to array
contents. -/

/-- The array heap: cell `i` holds the contents of the array allocated
`i`-th. -/
structure ArrayHeap where
  cells : List (List ProductRecord)
deriving Repr

/-- Allocate a fresh array holding `v`; returns the heap and the new
reference. -/
def ArrayHeap.alloc (h : ArrayHeap) (v : List ProductRecord) : ArrayHeap × Nat :=
  (⟨h.cells ++ [v]⟩, h.cells.length)

/-- Read the array a reference designates. -/
def ArrayHeap.read (h : ArrayHeap) (r : Nat) : List ProductRecord :=
  h.cells.getD r []

/-- Overwrite the array a reference designates (in-place mutation). -/
def ArrayHeap.write (h : ArrayHeap) (r : Nat) (v : List ProductRecord) : ArrayHeap :=
  ⟨h.cells.set r v⟩

/-- The `filteredRecords` effect (App.tsx 46–62) over the array heap:
`let tempRecords = [...records]` allocates a copy; each truthy filter
allocates a fresh array and rebinds `tempRecords`; `.sort(...)` mutates the
array `tempRecords` references in place and yields that same reference,
which `setFilteredRecords` receives. -/
def filterEffect (tz : Int) (h : ArrayHeap) (recordsRef : Nat)
    (searchTerm dateFilter : String) : ArrayHeap × Nat :=
  let step0 := h.alloc (h.read recordsRef)
  let step1 := if searchTerm ≠ "" then
      step0.1.alloc ((step0.1.read step0.2).filter
        (fun record => nameMatches record searchTerm))
    else step0
  let step2 := if dateFilter ≠ "" then
      step1.1.alloc ((step1.1.read step1.2).filter
        (fun record => dateMatches tz record dateFilter))
    else step1
  let sorted := List.insertionSort (recordOrder tz) (step2.1.read step2.2)
  (step2.1.write step2.2 sorted, step2.2)

/-! ### Image Preprocessor dimension arithmetic (`resizeImage`, App.tsx 64–103) -/

/-- The dimension computation of `resizeImage` (App.tsx 73–88), with
`MAX_WIDTH = MAX_HEIGHT = 400` inlined: JS numbers modelled as `ℚ` (the
source's divisions and products are float operations; rounding is not
modelled). -/
def resizeDims (w h : ℚ) : ℚ × ℚ :=
  if h < w then
    if 400 < w then (400, h * (400 / w)) else (w, h)
  else
    if 400 < h then (w * (400 / h), 400) else (w, h)

/-- The canvas dimensions (App.tsx 89–90): assigning a float to
`canvas.width` / `canvas.height` (IDL `unsigned long`) truncates it toward
zero — for the non-negative values here, the floor. -/
def canvasDims (w h : ℚ) : Int × Int :=
  (⌊(resizeDims w h).1⌋, ⌊(resizeDims w h).2⌋)

/-! ### The analyze handler (`handleAnalyze`, App.tsx 180–195) -/

/-- The application state `handleAnalyze` reads or writes. -/
structure AnalyzeState where
  analysisQuery : String
  records : List ProductRecord
  isLoadingAnalysis : Bool
  analysisResult : String
  error : Option String
deriving DecidableEq, Repr

/-- Handler `handleAnalyze` up to the external call (App.tsx 180–187): when the
trimmed query is empty (falsy) it returns before any state update or call;
otherwise it enters the loading state and issues the request
`analyzeShoppingHistory(analysisQuery, records)`, returned as the second
component for the environment to answer. -/
def handleAnalyze (st : AnalyzeState) :
    AnalyzeState × Option (String × List ProductRecord) :=
  if jsTrim st.analysisQuery = "" then (st, none)
  else
    ({ st with isLoadingAnalysis := true, analysisResult := "", error := none },
      some (st.analysisQuery, st.records))

/-! ## Theorems -/

/-- Helper: a filter by id-difference keeps exactly the non-matching
records, so the length drops by one when ids are distinct and the id
occurs. -/
theorem removeRecord_length_of_mem :
    ∀ (records : List ProductRecord) (id : String),
      (records.map ProductRecord.id).Nodup → (∃ r ∈ records, r.id = id) →
      (removeRecord records id).length + 1 = records.length := by
  intro records id
  induction records with
  | nil => intro _ hex; simp at hex
  | cons a tl ih =>
    intro hnd hex
    simp only [List.map_cons, List.nodup_cons] at hnd
    by_cases ha : a.id = id
    · have htl : ∀ r ∈ tl, (r.id != id) = true := by
        intro r hr
        have : r.id ≠ a.id := fun hcontra =>
          hnd.1 (hcontra ▸ List.mem_map_of_mem ProductRecord.id hr)
        simpa [bne_iff_ne] using fun hcontra => this (hcontra.trans ha.symm)
      simp [removeRecord, List.filter_cons, bne_iff_ne, ha,
        List.filter_eq_self.mpr htl]
    · have hex' : ∃ r ∈ tl, r.id = id := by
        rcases hex with ⟨r, hr, hrid⟩
        rcases List.mem_cons.1 hr with rfl | hmem
        · exact absurd hrid ha
        · exact ⟨r, hmem, hrid⟩
      have := ih hnd.2 hex'
      simp only [removeRecord, List.filter_cons] at *
      simp [bne_iff_ne, ha, ← this]

/-- Claim C2, amended.  `remove(id)` (App.tsx 176–178) leaves no record with
that id; when the collection's ids are pairwise distinct, its size
decreases by exactly one if a record with the id existed, and the
collection is unchanged when no record has the id. -/
theorem c2_remove_spec (records : List ProductRecord) (id : String)
    (hnd : (records.map ProductRecord.id).Nodup) :
    (∀ r ∈ removeRecord records id, r.id ≠ id) ∧
    ((∃ r ∈ records, r.id = id) →
      (removeRecord records id).length + 1 = records.length) ∧
    ((∀ r ∈ records, r.id ≠ id) → removeRecord records id = records) := by
  refine ⟨?_, removeRecord_length_of_mem records id hnd, ?_⟩
  · intro r hr
    have := (List.mem_filter.1 hr).2
    simpa [bne_iff_ne] using this
  · intro hnone
    exact List.filter_eq_self.mpr fun r hr => by simpa [bne_iff_ne] using hnone r hr

/-- Claim C2, witness.  On a two-record collection with distinct ids,
removing an existing id empties no other record, shrinks the length by
one, and removing an absent id changes nothing. -/
theorem c2_remove_spec_witness :
    (∀ r ∈ removeRecord
        [{ id := "a", imageUrl := "u1", name := "Milk", price := 5/2,
           date := "2024-01-01T10:00:00.000Z", location := none },
         { id := "b", imageUrl := "u2", name := "Bread", price := 3,
           date := "2024-01-02T10:00:00.000Z", location := none }] "a",
      r.id ≠ "a") ∧
    (removeRecord
        [{ id := "a", imageUrl := "u1", name := "Milk", price := 5/2,
           date := "2024-01-01T10:00:00.000Z", location := none },
         { id := "b", imageUrl := "u2", name := "Bread", price := 3,
           date := "2024-01-02T10:00:00.000Z", location := none }] "a").length + 1 = 2 := by
  have h := c2_remove_spec
    [{ id := "a", imageUrl := "u1", name := "Milk", price := 5/2,
       date := "2024-01-01T10:00:00.000Z", location := none },
     { id := "b", imageUrl := "u2", name := "Bread", price := 3,
       date := "2024-01-02T10:00:00.000Z", location := none }] "a" (by decide)
  exact ⟨h.1, h.2.1 (by decide)⟩

/-- Claim C2, counterexample.  The claim quantifies over every record
collection; on a collection holding two records with the same id, removal
deletes both, so the size drops by two, not one. -/
theorem c2_counterexample :
    (∃ r ∈ [{ id := "a", imageUrl := "u1", name := "x", price := 1,
              date := "2024-01-01T10:00:00.000Z", location := none },
            { id := "a", imageUrl := "u2", name := "y", price := 2,
              date := "2024-01-02T10:00:00.000Z", location := none }],
       ProductRecord.id r = "a") ∧
    (removeRecord
        [{ id := "a", imageUrl := "u1", name := "x", price := 1,
           date := "2024-01-01T10:00:00.000Z", location := none },
         { id := "a", imageUrl := "u2", name := "y", price := 2,
           date := "2024-01-02T10:00:00.000Z", location := none }] "a").length ≠
      [{ id := "a", imageUrl := "u1", name := "x", price := 1,
         date := "2024-01-01T10:00:00.000Z", location := none },
        ({ id := "a", imageUrl := "u2", name := "y", price := 2,
           date := "2024-01-02T10:00:00.000Z", location := none } : ProductRecord)].length - 1 := by
  decide

/-- Helper: decoding inverts encoding on a single record. -/
theorem decodeRecord_encodeRecord (r : ProductRecord) :
    decodeRecord (encodeRecord r) = some r := by
  cases r with
  | mk id imageUrl name price date location => cases location <;> rfl

/-- Helper: decoding inverts encoding on a record list. -/
theorem decodeRecordList_map_encodeRecord (records : List ProductRecord) :
    decodeRecordList (records.map encodeRecord) = some records := by
  induction records with
  | nil => rfl
  | cons r rs ih => simp [decodeRecordList, decodeRecord_encodeRecord, ih]

/-- Claim C3.  A successful `save` (App.tsx 37–44) followed by `load`
(App.tsx 26–35, simulating a fresh process start) yields the collection
that was saved, for every collection of records; hence the persisted and
in-memory collections agree after every successful save. -/
theorem c3_save_load_round_trip (records : List ProductRecord) :
    loadRecords (some (saveRecords records)) = records := by
  simp [loadRecords, loadBody, saveRecords, jsonParse, encodeRecords,
    decodeRecords, decodeRecordList_map_encodeRecord]

/-- Claim C8.  `load()` (App.tsx 26–35) is a total operation (it returns a
collection on every persisted payload, the `catch` swallowing any parse
exception), and on any payload whose deserialization fails the in-memory
collection starts empty. -/
theorem c8_load_never_throws (slot : Option Payload) (msg : String)
    (hfail : loadBody slot = Except.error msg) : loadRecords slot = [] := by
  simp [loadRecords, hfail]

/-- Claim C8, witness.  `JSON.parse` of a malformed payload throws,
and `load` recovers with the empty collection. -/
theorem c8_load_never_throws_witness :
    loadBody (some (Payload.malformed "not json")) =
      Except.error "SyntaxError: Unexpected token in JSON" ∧
    loadRecords (some (Payload.malformed "not json")) = [] :=
  ⟨rfl, c8_load_never_throws (some (Payload.malformed "not json")) _ rfl⟩

/-- Claim C4.  For every input image of non-negative dimensions `w × h`, the
preprocessor's computed output dimensions (and the integral canvas
dimensions obtained from them) have longer side ≤ 400; when the longer
input side exceeds 400 both dimensions are scaled by exactly
`400 / max w h`, and otherwise they are unchanged. -/
theorem c4_resize_bounds (w h : ℚ) (hw : 0 ≤ w) (hh : 0 ≤ h) :
    max (resizeDims w h).1 (resizeDims w h).2 ≤ 400 ∧
    max (canvasDims w h).1 (canvasDims w h).2 ≤ 400 ∧
    (400 < max w h →
      resizeDims w h = ((400 / max w h) * w, (400 / max w h) * h)) ∧
    (max w h ≤ 400 → resizeDims w h = (w, h)) := by
  have hfloor400 : (⌊(400 : ℚ)⌋ : ℤ) = 400 := by
    rw [show ((400 : ℚ)) = ((400 : ℤ) : ℚ) by norm_num, Int.floor_intCast]
  by_cases hcmp : h < w
  · have hmax : max w h = w := max_eq_left hcmp.le
    by_cases hbig : (400 : ℚ) < w
    · have hw0 : w ≠ 0 := by positivity
      have hres : resizeDims w h = (400, h * (400 / w)) := by
        simp [resizeDims, hcmp, hbig]
      have hsnd : h * (400 / w) ≤ 400 := by
        calc h * (400 / w) ≤ w * (400 / w) :=
              mul_le_mul_of_nonneg_right hcmp.le (by positivity)
          _ = 400 := by field_simp
      refine ⟨?_, ?_, ?_, ?_⟩
      · rw [hres]; exact max_le le_rfl hsnd
      · rw [canvasDims, hres]
        refine max_le ?_ ?_
        · exact le_of_eq hfloor400
        · exact hfloor400 ▸ Int.floor_le_floor hsnd
      · intro _
        rw [hres, hmax]
        refine Prod.ext ?_ (mul_comm _ _)
        exact (div_mul_cancel₀ 400 hw0).symm
      · intro hle
        exact absurd (hmax ▸ hle) (not_le.mpr hbig)
    · have hwle : w ≤ 400 := not_lt.1 hbig
      have hres : resizeDims w h = (w, h) := by simp [resizeDims, hcmp, hbig]
      refine ⟨?_, ?_, ?_, fun _ => hres⟩
      · rw [hres]; exact max_le hwle (hcmp.le.trans hwle)
      · rw [canvasDims, hres]
        exact max_le (hfloor400 ▸ Int.floor_le_floor hwle)
          (hfloor400 ▸ Int.floor_le_floor (hcmp.le.trans hwle))
      · intro habs
        exact absurd (hmax ▸ habs) (not_lt.mpr hwle)
  · have hwh : w ≤ h := not_lt.1 hcmp
    have hmax : max w h = h := max_eq_right hwh
    by_cases hbig : (400 : ℚ) < h
    · have hh0 : h ≠ 0 := by positivity
      have hres : resizeDims w h = (w * (400 / h), 400) := by
        simp [resizeDims, hcmp, hbig]
      have hfst : w * (400 / h) ≤ 400 := by
        calc w * (400 / h) ≤ h * (400 / h) :=
              mul_le_mul_of_nonneg_right hwh (by positivity)
          _ = 400 := by field_simp
      refine ⟨?_, ?_, ?_, ?_⟩
      · rw [hres]; exact max_le hfst le_rfl
      · rw [canvasDims, hres]
        exact max_le (hfloor400 ▸ Int.floor_le_floor hfst) (le_of_eq hfloor400)
      · intro _
        rw [hres, hmax]
        refine Prod.ext (mul_comm _ _) ?_
        exact (div_mul_cancel₀ 400 hh0).symm
      · intro hle
        exact absurd (hmax ▸ hle) (not_le.mpr hbig)
    · have hhle : h ≤ 400 := not_lt.1 hbig
      have hres : resizeDims w h = (w, h) := by simp [resizeDims, hcmp, hbig]
      refine ⟨?_, ?_, ?_, fun _ => hres⟩
      · rw [hres]; exact max_le (hwh.trans hhle) hhle
      · rw [canvasDims, hres]
        exact max_le (hfloor400 ▸ Int.floor_le_floor (hwh.trans hhle))
          (hfloor400 ▸ Int.floor_le_floor hhle)
      · intro habs
        exact absurd (hmax ▸ habs) (not_lt.mpr hhle)

/-- Claim C4, witness.  An 800 × 600 input is scaled by `400 / 800` to
400 × 300, and a 200 × 100 input is left unchanged. -/
theorem c4_resize_bounds_witness :
    (max (resizeDims 800 600).1 (resizeDims 800 600).2 ≤ 400 ∧
      resizeDims 800 600 = ((400 / max 800 600) * 800, (400 / max 800 600) * 600)) ∧
    resizeDims 200 100 = (200, 100) :=
  ⟨⟨(c4_resize_bounds 800 600 (by norm_num) (by norm_num)).1,
    (c4_resize_bounds 800 600 (by norm_num) (by norm_num)).2.2.1 (by norm_num)⟩,
   (c4_resize_bounds 200 100 (by norm_num) (by norm_num)).2.2.2 (by norm_num)⟩

/-- Helper: one step of `runEvents`. -/
theorem runEvents_cons (init : List ProductRecord) (e : Event) (rest : List Event) :
    runEvents init (e :: rest) = runEvents (applyEvent init e) rest := rfl

/-- Helper: the record ids stay pairwise distinct along any event sequence
whose supplied add-ids are distinct from each other and from the initial
ids. -/
theorem nodup_ids_runEvents :
    ∀ (events : List Event) (init : List ProductRecord),
      (init.map ProductRecord.id ++ events.filterMap eventAddId).Nodup →
      ((runEvents init events).map ProductRecord.id).Nodup := by
  intro events
  induction events with
  | nil => intro init h; simpa [runEvents] using h
  | cons e rest ih =>
    intro init h
    rw [runEvents_cons]
    cases e with
    | addRecord now rand name priceInput imageUrl loc =>
      refine ih _ ?_
      have h' : (init.map ProductRecord.id ++
          genId now rand :: rest.filterMap eventAddId).Nodup := by
        simpa [eventAddId] using h
      have hgoal := List.perm_middle.nodup h'
      simpa [applyEvent] using hgoal
    | deleteRecord id =>
      refine ih _ ?_
      have h' : (init.map ProductRecord.id ++ rest.filterMap eventAddId).Nodup := by
        simpa [eventAddId] using h
      have hsub : ((removeRecord init id).map ProductRecord.id ++
          rest.filterMap eventAddId).Sublist
          (init.map ProductRecord.id ++ rest.filterMap eventAddId) :=
        List.Sublist.append_right ((List.filter_sublist init).map ProductRecord.id) _
      exact h'.sublist hsub

/-- Claim C5, amended.  Starting from the loaded collection, every state
reached by add/delete events has pairwise distinct record ids, provided
the environment-generated id strings (`toISOString()` instant concatenated
with the `Math.random()` draw, App.tsx 164) of the add events are pairwise
distinct and distinct from the loaded ids. -/
theorem c5_ids_nodup (slot : Option Payload) (events : List Event)
    (h : ((loadRecords slot).map ProductRecord.id ++
      events.filterMap eventAddId).Nodup) :
    ((runEvents (loadRecords slot) events).map ProductRecord.id).Nodup :=
  nodup_ids_runEvents events (loadRecords slot) h

/-- Claim C5, witness.  From an empty store, two adds whose generated ids
differ leave the store with pairwise distinct ids. -/
theorem c5_ids_nodup_witness :
    (((loadRecords none).map ProductRecord.id ++
      [Event.addRecord "2024-01-01T10:00:00.000Z" "0.1" "Milk" "2.5" "u" none,
       Event.addRecord "2024-01-02T10:00:00.000Z" "0.2" "Bread" "3" "u" none
      ].filterMap eventAddId).Nodup) ∧
    ((runEvents (loadRecords none)
      [Event.addRecord "2024-01-01T10:00:00.000Z" "0.1" "Milk" "2.5" "u" none,
       Event.addRecord "2024-01-02T10:00:00.000Z" "0.2" "Bread" "3" "u" none
      ]).map ProductRecord.id).Nodup :=
  ⟨by decide, c5_ids_nodup none _ (by decide)⟩

/-- Claim C5, counterexample.  Nothing prevents two adds from drawing the
same creation instant and the same `Math.random()` value; such a reachable
state holds two records with the same id, violating the claimed
invariant. -/
theorem c5_counterexample :
    ¬ ((runEvents (loadRecords none)
      [Event.addRecord "2024-01-01T10:00:00.000Z" "0.5" "Milk" "2.5" "u" none,
       Event.addRecord "2024-01-01T10:00:00.000Z" "0.5" "Bread" "3" "u" none
      ]).map ProductRecord.id).Nodup := by
  decide

/-- Claim C6, amended.  A record added via the add-record flow stores as its
price exactly `parseFloat` of the confirmed price input — no validation is
applied, so the stored price is non-negative exactly when the parsed input
is. -/
theorem c6_price_is_parsed_input (records : List ProductRecord)
    (now rand name priceInput imageUrl : String)
    (loc : Option GeolocationPosition) (q : ℚ)
    (hq : jsParseFloat priceInput = some q) :
    runEvents records [Event.addRecord now rand name priceInput imageUrl loc] =
      { id := genId now rand, imageUrl := imageUrl, name := name, price := q,
        date := now, location := loc } :: records := by
  simp [runEvents, applyEvent, hq]

/-- Claim C6, witness.  A confirmed input `"2.5"` stores price `5/2 ≥ 0`. -/
theorem c6_price_is_parsed_input_witness :
    jsParseFloat "2.5" = some (mkRat 5 2) ∧ mkRat 5 2 = 5/2 ∧
    runEvents [] [Event.addRecord "2024-01-01T10:00:00.000Z" "0.1" "Milk"
        "2.5" "u" none] =
      [{ id := genId "2024-01-01T10:00:00.000Z" "0.1", imageUrl := "u",
         name := "Milk", price := mkRat 5 2, date := "2024-01-01T10:00:00.000Z",
         location := none }] ∧
    (0 : ℚ) ≤ mkRat 5 2 :=
  ⟨by decide, by rw [Rat.mkRat_eq_div]; norm_num,
   c6_price_is_parsed_input [] _ _ _ _ _ _ _ (by decide), by decide⟩

/-- Claim C6, counterexample.  The price input is not validated: confirming
`"-5"` stores a record with negative price, refuting `price ≥ 0`. -/
theorem c6_counterexample :
    ¬ ∀ r ∈ runEvents [] [Event.addRecord "2024-01-01T10:00:00.000Z" "0.123"
        "Widget" "-5" "u" none], 0 ≤ r.price := by
  decide

/-- Claim C7.  When the analysis query is empty after trimming,
`handleAnalyze` (App.tsx 180–195) returns before the external call: the
state is unchanged and no request is issued. -/
theorem c7_empty_query_no_call (st : AnalyzeState)
    (hq : jsTrim st.analysisQuery = "") : handleAnalyze st = (st, none) := by
  simp [handleAnalyze, hq]

/-- Claim C7, witness.  The whitespace query `"   "` trims to empty, so
submitting it changes no state and issues no call. -/
theorem c7_empty_query_no_call_witness :
    jsTrim "   " = "" ∧
    handleAnalyze
        { analysisQuery := "   ", records := [], isLoadingAnalysis := false,
          analysisResult := "", error := none } =
      ({ analysisQuery := "   ", records := [], isLoadingAnalysis := false,
         analysisResult := "", error := none }, none) :=
  ⟨by decide, c7_empty_query_no_call _ (by decide)⟩

/-- Claim C1.  Every record in the derived filtered output satisfies each
active predicate — name containment when a search string is set, calendar
day equality when a date filter is set — and the output is sorted date
descending (most recent first), for every collection, filter combination
and runtime timezone. -/
theorem c1_filtered_spec (tz : Int) (records : List ProductRecord)
    (searchTerm dateFilter : String) :
    (∀ r ∈ filteredRecords tz records searchTerm dateFilter,
      (searchTerm ≠ "" → nameMatches r searchTerm = true) ∧
      (dateFilter ≠ "" → dateMatches tz r dateFilter = true)) ∧
    List.Sorted (recordOrder tz)
      (filteredRecords tz records searchTerm dateFilter) := by
  constructor
  · intro r hr
    simp only [filteredRecords] at hr
    rw [List.mem_insertionSort] at hr
    by_cases hs : searchTerm = "" <;> by_cases hd : dateFilter = "" <;>
      simp only [hs, hd, ne_eq, not_true_eq_false, not_false_eq_true,
        if_true, if_false, ite_true, ite_false, ite_not] at hr
    · exact ⟨fun hcon => absurd hs hcon, fun hcon => absurd hd hcon⟩
    · exact ⟨fun hcon => absurd hs hcon, fun _ => (List.mem_filter.1 hr).2⟩
    · exact ⟨fun _ => (List.mem_filter.1 hr).2, fun hcon => absurd hd hcon⟩
    · exact ⟨fun _ => (List.mem_filter.1 (List.mem_filter.1 hr).1).2,
        fun _ => (List.mem_filter.1 hr).2⟩
  · simp only [filteredRecords]
    exact List.sorted_insertionSort (recordOrder tz) _

/-- Claim C1, witness.  With search term `"mil"` and no date filter over a
two-record store, the (Milk) record in the output matches the name
predicate, and the output is sorted date descending. -/
theorem c1_filtered_spec_witness :
    nameMatches
      { id := "id1", imageUrl := "u1", name := "Milk", price := 2,
        date := "2024-01-01T10:00:00.000Z", location := none } "mil" = true ∧
    List.Sorted (recordOrder 0) (filteredRecords 0
      [{ id := "id1", imageUrl := "u1", name := "Milk", price := 2,
         date := "2024-01-01T10:00:00.000Z", location := none },
       { id := "id2", imageUrl := "u2", name := "Bread", price := 3,
         date := "2024-01-02T10:00:00.000Z", location := none }] "mil" "") := by
  have h := c1_filtered_spec 0
    [{ id := "id1", imageUrl := "u1", name := "Milk", price := 2,
       date := "2024-01-01T10:00:00.000Z", location := none },
     { id := "id2", imageUrl := "u2", name := "Bread", price := 3,
       date := "2024-01-02T10:00:00.000Z", location := none }] "mil" ""
  exact ⟨(h.1 _ (by decide)).1 (by decide), h.2⟩

/-- Helper: ASCII digit characters are never `'T'`. -/
theorem digitChar_ne_T (m : Nat) : digitChar m ≠ 'T' := by
  unfold digitChar
  split <;> decide

/-- Helper: decimal digit strings contain no `'T'`. -/
theorem natDigitsAux_ne_T :
    ∀ (fuel n : Nat), ∀ c ∈ natDigitsAux fuel n, c ≠ 'T' := by
  intro fuel
  induction fuel with
  | zero => intro n c hc; simp [natDigitsAux] at hc
  | succ fuel ih =>
    intro n c hc
    match n with
    | 0 => simp [natDigitsAux] at hc
    | n + 1 =>
      rw [natDigitsAux] at hc
      rcases List.mem_append.1 hc with hmem | hmem
      · exact ih _ c hmem
      · rw [List.mem_singleton] at hmem
        exact hmem ▸ digitChar_ne_T _

/-- Helper: decimal digit strings contain no `'T'`. -/
theorem natDigits_ne_T (n : Nat) : ∀ c ∈ natDigits n, c ≠ 'T' := by
  intro c hc
  unfold natDigits at hc
  by_cases hn : n = 0
  · simp [hn] at hc; exact hc ▸ (by decide)
  · simp only [hn, if_false, ite_false] at hc
    exact natDigitsAux_ne_T n n c hc

/-- Helper: zero-padded decimal strings contain no `'T'`. -/
theorem padNatChars_ne_T (w n : Nat) : ∀ c ∈ padNatChars w n, c ≠ 'T' := by
  intro c hc
  rcases List.mem_append.1 hc with hmem | hmem
  · exact (List.eq_of_mem_replicate hmem) ▸ (by decide)
  · exact natDigits_ne_T n c hmem

/-- Helper: the serialized year field contains no `'T'`. -/
theorem isoYearChars_ne_T (y : Int) : ∀ c ∈ isoYearChars y, c ≠ 'T' := by
  intro c hc
  unfold isoYearChars at hc
  split at hc
  · rcases List.mem_cons.1 hc with rfl | hmem
    · decide
    · exact padNatChars_ne_T _ _ c hmem
  · split at hc
    · rcases List.mem_cons.1 hc with rfl | hmem
      · decide
      · exact padNatChars_ne_T _ _ c hmem
    · exact padNatChars_ne_T _ _ c hc

/-- Helper: the `YYYY-MM-DD` day field contains no `'T'`. -/
theorem utcCalendarDayChars_ne_T (t : Int) :
    ∀ c ∈ utcCalendarDayChars t, c ≠ 'T' := by
  intro c hc
  unfold utcCalendarDayChars at hc
  rcases hciv : civilFromDays (Int.ediv t 86400000) with ⟨y, mo, dy⟩
  rw [hciv] at hc
  rcases List.mem_append.1 hc with h1 | h2
  · rcases List.mem_append.1 h1 with hy | hmo
    · exact isoYearChars_ne_T y c hy
    · rcases List.mem_cons.1 hmo with rfl | hmo'
      · decide
      · exact padNatChars_ne_T _ _ c hmo'
  · rcases List.mem_cons.1 h2 with rfl | hdy
    · decide
    · exact padNatChars_ne_T _ _ c hdy

/-- Helper: `takeWhile (· ≠ 'T')` of a `'T'`-free block followed by `'T'`
returns the block. -/
theorem takeWhile_append_T (a b : List Char) (ha : ∀ c ∈ a, c ≠ 'T') :
    (a ++ 'T' :: b).takeWhile (fun c => c != 'T') = a := by
  induction a with
  | nil => simp [List.takeWhile]
  | cons x xs ih =>
    have hx : (x != 'T') = true := by
      simpa [bne_iff_ne] using ha x (List.mem_cons_self x xs)
    simp only [List.cons_append, List.takeWhile_cons, hx, if_true, ite_true]
    rw [ih fun c hc => ha c (List.mem_cons_of_mem x hc)]

/-- Helper: `toISOString(t).split('T')[0]` is exactly the UTC calendar day
of `t`. -/
theorem splitHeadT_jsToISOString (tz t : Int) :
    splitHeadT (jsToISOString tz t) = utcCalendarDay t := by
  unfold splitHeadT jsToISOString utcCalendarDay
  exact congrArg String.mk
    (takeWhile_append_T (utcCalendarDayChars t) (isoTimeChars t)
      (utcCalendarDayChars_ne_T t))

/-- Claim C10.  The date filter predicate is independent of the runtime's
local timezone offset, and for a record whose date parses to time value
`t` it compares exactly the UTC calendar day of `t` (the date portion of
the ISO-8601 UTC serialization) with the filter string. -/
theorem c10_date_filter_is_utc (tz tz' : Int) (record : ProductRecord)
    (dateFilter : String) :
    dateMatches tz record dateFilter = dateMatches tz' record dateFilter ∧
    (∀ t, jsDateParse tz record.date = some t →
      dateMatches tz record dateFilter = (utcCalendarDay t == dateFilter)) := by
  refine ⟨rfl, ?_⟩
  intro t ht
  simp [dateMatches, ht, splitHeadT_jsToISOString]

/-- Claim C10, witness.  A record dated `2024-01-02T10:00:00.000Z` (time
value 1704189600000) matches the day filter `"2024-01-02"` — its UTC
calendar day — in any runtime timezone. -/
theorem c10_date_filter_is_utc_witness :
    dateMatches 480
      { id := "x", imageUrl := "u", name := "Milk", price := 2,
        date := "2024-01-02T10:00:00.000Z", location := none } "2024-01-02" =
      (utcCalendarDay 1704189600000 == "2024-01-02") ∧
    (utcCalendarDay 1704189600000 == "2024-01-02") = true :=
  ⟨(c10_date_filter_is_utc 480 0 _ "2024-01-02").2 1704189600000 (by decide),
   by decide⟩

/-- Helper: `getD` ignores a suffix when reading inside the original
list. -/
theorem listGetD_append_lt {α : Type} :
    ∀ (l l' : List α) (i : Nat) (d : α), i < l.length →
      (l ++ l').getD i d = l.getD i d := by
  intro l
  induction l with
  | nil => intro l' i d hi; simp at hi
  | cons x xs ih =>
    intro l' i d hi
    cases i with
    | zero => rfl
    | succ i =>
      simp only [List.cons_append, List.getD_cons_succ]
      exact ih l' i d (Nat.lt_of_succ_lt_succ hi)

/-- Helper: `getD` at the old length reads a freshly appended element. -/
theorem listGetD_append_self {α : Type} :
    ∀ (l : List α) (v d : α), (l ++ [v]).getD l.length d = v := by
  intro l
  induction l with
  | nil => intro v d; rfl
  | cons x xs ih => intro v d; simpa using ih v d

/-- Helper: `set` at one index leaves `getD` at another unchanged. -/
theorem listGetD_set_ne {α : Type} :
    ∀ (l : List α) (i j : Nat) (v d : α), i ≠ j →
      (l.set j v).getD i d = l.getD i d := by
  intro l
  induction l with
  | nil => intro i j v d _; rfl
  | cons x xs ih =>
    intro i j v d hij
    cases j with
    | zero =>
      cases i with
      | zero => exact absurd rfl hij
      | succ i => rfl
    | succ j =>
      cases i with
      | zero => rfl
      | succ i =>
        simp only [List.set_cons_succ, List.getD_cons_succ]
        exact ih i j v d (fun h => hij (h ▸ rfl))

/-- Helper: `set` then `getD` at the same in-range index reads the new
value. -/
theorem listGetD_set_self {α : Type} :
    ∀ (l : List α) (j : Nat) (v d : α), j < l.length →
      (l.set j v).getD j d = v := by
  intro l
  induction l with
  | nil => intro j v d hj; simp at hj
  | cons x xs ih =>
    intro j v d hj
    cases j with
    | zero => rfl
    | succ j =>
      simp only [List.set_cons_succ, List.getD_cons_succ]
      exact ih j v d (Nat.lt_of_succ_lt_succ hj)

/-- Helper: allocation preserves every existing cell. -/
theorem ArrayHeap.read_alloc_old (h : ArrayHeap) (v : List ProductRecord)
    (i : Nat) (hi : i < h.cells.length) : (h.alloc v).1.read i = h.read i :=
  listGetD_append_lt h.cells [v] i [] hi

/-- Helper: reading the fresh reference yields the allocated contents. -/
theorem ArrayHeap.read_alloc_new (h : ArrayHeap) (v : List ProductRecord) :
    (h.alloc v).1.read (h.alloc v).2 = v :=
  listGetD_append_self h.cells v []

/-- Helper: in-place mutation of one array leaves the others unchanged. -/
theorem ArrayHeap.read_write_ne (h : ArrayHeap) (i j : Nat)
    (v : List ProductRecord) (hij : i ≠ j) : (h.write j v).read i = h.read i :=
  listGetD_set_ne h.cells i j v [] hij

/-- Helper: in-place mutation is visible through the mutated reference. -/
theorem ArrayHeap.read_write_self (h : ArrayHeap) (j : Nat)
    (v : List ProductRecord) (hj : j < h.cells.length) :
    (h.write j v).read j = v :=
  listGetD_set_self h.cells j v [] hj

/-- Claim C9.  The filter effect never mutates the Record Store: over the
array-reference heap, running the effect leaves the array `records`
references untouched (same elements, same order), and the reference it
hands to `setFilteredRecords` designates exactly the derived
filtered-and-sorted copy. -/
theorem c9_filter_does_not_mutate_store (tz : Int) (h : ArrayHeap)
    (recordsRef : Nat) (searchTerm dateFilter : String)
    (href : recordsRef < h.cells.length) :
    (filterEffect tz h recordsRef searchTerm dateFilter).1.read recordsRef =
      h.read recordsRef ∧
    (filterEffect tz h recordsRef searchTerm dateFilter).1.read
        (filterEffect tz h recordsRef searchTerm dateFilter).2 =
      filteredRecords tz (h.read recordsRef) searchTerm dateFilter := by
  by_cases hs : searchTerm = "" <;> by_cases hd : dateFilter = "" <;>
    simp only [filterEffect, filteredRecords, hs, hd, ne_eq,
      not_true_eq_false, not_false_eq_true, if_true, if_false, ite_true,
      ite_false, ite_not, ArrayHeap.read_alloc_new] <;>
    simp only [ArrayHeap.alloc, ArrayHeap.read, ArrayHeap.write,
      List.length_append, List.length_singleton]
  · constructor
    · rw [listGetD_set_ne _ _ _ _ _ (Nat.ne_of_lt href),
        listGetD_append_lt _ _ _ _ href]
    · rw [listGetD_set_self]
      simp only [List.length_append, List.length_singleton]
      omega
  · constructor
    · rw [listGetD_set_ne _ _ _ _ _
          (Nat.ne_of_lt (Nat.lt_succ_of_lt href)),
        listGetD_append_lt _ _ _ _ (by simpa using Nat.lt_succ_of_lt href),
        listGetD_append_lt _ _ _ _ href]
    · rw [listGetD_set_self]
      simp only [List.length_append, List.length_singleton]
      omega
  · constructor
    · rw [listGetD_set_ne _ _ _ _ _
          (Nat.ne_of_lt (Nat.lt_succ_of_lt href)),
        listGetD_append_lt _ _ _ _ (by simpa using Nat.lt_succ_of_lt href),
        listGetD_append_lt _ _ _ _ href]
    · rw [listGetD_set_self]
      simp only [List.length_append, List.length_singleton]
      omega
  · constructor
    · rw [listGetD_set_ne _ _ _ _ _
          (Nat.ne_of_lt (Nat.lt_succ_of_lt (Nat.lt_succ_of_lt href))),
        listGetD_append_lt _ _ _ _
          (by simpa using Nat.lt_succ_of_lt (Nat.lt_succ_of_lt href)),
        listGetD_append_lt _ _ _ _ (by simpa using Nat.lt_succ_of_lt href),
        listGetD_append_lt _ _ _ _ href]
    · rw [listGetD_set_self]
      simp only [List.length_append, List.length_singleton]
      omega

/-- Claim C9, witness.  On a concrete three-cell heap and both filters
active, the cell the store references is untouched and the result
reference holds the derived view. -/
theorem c9_filter_does_not_mutate_store_witness :
    (filterEffect 0
        ⟨[[{ id := "id1", imageUrl := "u1", name := "Milk", price := 2,
             date := "2024-01-01T10:00:00.000Z", location := none }]]⟩
        0 "mil" "2024-01-01").1.read 0 =
      ArrayHeap.read
        ⟨[[{ id := "id1", imageUrl := "u1", name := "Milk", price := 2,
             date := "2024-01-01T10:00:00.000Z", location := none }]]⟩ 0 ∧
    (filterEffect 0
        ⟨[[{ id := "id1", imageUrl := "u1", name := "Milk", price := 2,
             date := "2024-01-01T10:00:00.000Z", location := none }]]⟩
        0 "mil" "2024-01-01").1.read
      (filterEffect 0
        ⟨[[{ id := "id1", imageUrl := "u1", name := "Milk", price := 2,
             date := "2024-01-01T10:00:00.000Z", location := none }]]⟩
        0 "mil" "2024-01-01").2 =
      filteredRecords 0
        (ArrayHeap.read
          ⟨[[{ id := "id1", imageUrl := "u1", name := "Milk", price := 2,
               date := "2024-01-01T10:00:00.000Z", location := none }]]⟩ 0)
        "mil" "2024-01-01" :=
  c9_filter_does_not_mutate_store 0
    ⟨[[{ id := "id1", imageUrl := "u1", name := "Milk", price := 2,
         date := "2024-01-01T10:00:00.000Z", location := none }]]⟩
    0 "mil" "2024-01-01" (by decide)

end AIShoppingOCR
